import Mathlib

/-!
Shallow embedding of the two orchestration scripts of the repository
(`train.py` and `test.py`).  Tensor-producing framework calls (model forward,
loss terms, metric computations, optimiser updates) are modelled by oracle
functions collected in `Env`; the scripts themselves are modelled as pure
functions producing a trace of the observable events they perform (mode
switches, gradient steps, checkpoint saves, log writes, image writes) together
with the state they thread (model parameters, best PSNR so far).  Metric
values are rationals.  A second, fallible layer (`Instr`/`runScript`) models
the same call sequences with each call allowed to raise, for the
error-propagation and division-by-zero claims.
-/

set_option maxHeartbeats 1600000

namespace UW

/-- Configuration values read from `config.yml` that the two scripts use:
epoch count, validation cadence, loader lengths, and the various names and
directories. -/
structure Config where
  numEpochs : Nat
  valAfterEvery : Nat
  trainBatches : Nat
  valBatches : Nat
  session : String
  saveDir : String
  logDir : String
  trainLogFile : String
  resultDir : String
  testLogFile : String
  weight : String
  testValDir : String

/-- Oracles for the framework calls the scripts make.  Training-loss terms and
validation metrics are indexed by epoch and batch (the model changes between
epochs); test metrics by sample index only.  `optimUpdate` is the abstract
effect of one optimiser step on the model parameters (parameters are an
abstract `Nat`-coded state).  `filename` is the original filename of the i-th
test sample (`test_data[2][0]`), and `resultDirAtStart` says whether the
result directory exists before `test()` runs. -/
structure Env where
  smoothL1 : Nat → Nat → ℚ
  ssimMeasure : Nat → Nat → ℚ
  lpipsValue : Nat → Nat → ℚ
  valPsnr : Nat → Nat → ℚ
  valSsim : Nat → Nat → ℚ
  valLpips : Nat → Nat → ℚ
  valUciqe : Nat → Nat → ℚ
  valUiqm : Nat → Nat → ℚ
  testPsnr : Nat → ℚ
  testSsim : Nat → ℚ
  testLpips : Nat → ℚ
  testUciqe : Nat → ℚ
  testUiqm : Nat → ℚ
  optimUpdate : Nat → Nat → Nat → Nat
  initParams : Nat
  filename : Nat → String
  resultDirAtStart : Bool

/-- The five image-quality metrics reported by both scripts. -/
structure Metrics where
  psnr : ℚ
  ssim : ℚ
  lpips : ℚ
  uciqe : ℚ
  uiqm : ℚ
  deriving DecidableEq

/-- State threaded through the epoch loop of `train()`: current model
parameters and the best-PSNR bookkeeping (`best_psnr`, `best_epoch`,
initialised to 0 and 1 at lines 72-73 of `train.py`). -/
structure TrainState where
  params : Nat
  bestPsnr : ℚ
  bestEpoch : Nat
  deriving DecidableEq

/-- A line written to a log file.  `trainStats` is the formatted string of
`train.py` line 149 (it interpolates the epoch, the five metrics and the best
PSNR/epoch); `testInfo` and `testStats` are the two strings of `test.py`
lines 81 and 83 (the first interpolates session, checkpoint and data
directory, the second the five metrics and no epoch). -/
inductive LogLine where
  | trainStats (epoch : Nat) (psnr ssim lpips uciqe uiqm bestPsnr : ℚ) (bestEpoch : Nat)
  | testInfo (session weight valDir : String)
  | testStats (psnr ssim lpips uciqe uiqm : ℚ)
  deriving DecidableEq

/-- A value stored in a checkpoint dictionary (the scripts only ever store the
model parameters). -/
inductive CkptVal where
  | params (p : Nat)
  deriving DecidableEq

/-- Observable events performed by the scripts.  `forwardPass` records whether
the forward ran under `torch.no_grad()`.  `lossCompute` records the computed
loss value.  `saveCheckpoint` records the dictionary content (key/value
pairs), the epoch, the session name and the save directory, matching
`save_checkpoint({'state_dict': ...}, epoch, session, save_dir)`.
`logWrite` records the path, the file-open mode and the line. -/
inductive Event where
  | makeSaveDir (dir : String)
  | accelInitTrackers
  | accelPrepare
  | setTrainMode (e : Nat)
  | setEvalMode (e : Nat)
  | zeroGrad (e i : Nat)
  | forwardPass (e i : Nat) (noGrad : Bool)
  | lossCompute (e i : Nat) (v : ℚ)
  | accelBackward (e i : Nat)
  | optimStep (e i : Nat)
  | schedStep (e : Nat)
  | accelGather (e i : Nat)
  | saveCheckpoint (content : List (String × CkptVal)) (e : Nat) (session dir : String)
  | accelLogMetrics (e : Nat) (m : Metrics)
  | logWrite (path mode : String) (line : LogLine)
  | accelEndTraining
  | loadCheckpoint (w : String)
  | mkdirResult (dir : String)
  | writeImage (dir file : String)
  deriving DecidableEq

/-- Model of `os.path.join` for the two-component joins the scripts use. -/
def joinPath (d f : String) : String := d ++ "/" ++ f

/-- The training loss of `train.py` lines 89-93:
`loss_psnr + 0.3 * (1 - ssim) + 0.7 * loss_lpips`. -/
def trainLoss (env : Env) (e i : Nat) : ℚ :=
  env.smoothL1 e i + (3 : ℚ) / 10 * (1 - env.ssimMeasure e i)
    + (7 : ℚ) / 10 * env.lpipsValue e i

/-- Left-to-right accumulation `acc += f i` over `i = 0, …, n-1` starting from
0, as the `+=` loops of both scripts perform. -/
def sumRange (f : Nat → ℚ) (n : Nat) : ℚ :=
  (List.range n).foldl (fun a i => a + f i) 0

/-- The averaged validation metrics of the validation pass at epoch `e` in
`train()`: each accumulated sum divided by `size = len(testloader)`
(lines 104-130 of `train.py`). -/
def valAverages (cfg : Config) (env : Env) (e : Nat) : Metrics :=
  { psnr := sumRange (env.valPsnr e) cfg.valBatches / (cfg.valBatches : ℚ)
    ssim := sumRange (env.valSsim e) cfg.valBatches / (cfg.valBatches : ℚ)
    lpips := sumRange (env.valLpips e) cfg.valBatches / (cfg.valBatches : ℚ)
    uciqe := sumRange (env.valUciqe e) cfg.valBatches / (cfg.valBatches : ℚ)
    uiqm := sumRange (env.valUiqm e) cfg.valBatches / (cfg.valBatches : ℚ) }

/-- The averaged metrics of `test()` (lines 50-79 of `test.py`). -/
def testAverages (cfg : Config) (env : Env) : Metrics :=
  { psnr := sumRange env.testPsnr cfg.valBatches / (cfg.valBatches : ℚ)
    ssim := sumRange env.testSsim cfg.valBatches / (cfg.valBatches : ℚ)
    lpips := sumRange env.testLpips cfg.valBatches / (cfg.valBatches : ℚ)
    uciqe := sumRange env.testUciqe cfg.valBatches / (cfg.valBatches : ℚ)
    uiqm := sumRange env.testUiqm cfg.valBatches / (cfg.valBatches : ℚ) }

/-- Whether epoch `e` triggers a validation pass:
`epoch % opt.TRAINING.VAL_AFTER_EVERY == 0` (line 102 of `train.py`). -/
def validatedB (cfg : Config) (e : Nat) : Bool := e % cfg.valAfterEvery == 0

/-- Events of one training batch (lines 86-97 of `train.py`): zero gradients,
forward pass (gradients enabled), loss computation, `accelerator.backward`,
optimiser step. -/
def trainStepTrace (env : Env) (e i : Nat) : List Event :=
  [Event.zeroGrad e i, Event.forwardPass e i false,
   Event.lossCompute e i (trainLoss env e i),
   Event.accelBackward e i, Event.optimStep e i]

/-- Events of the training segment of one epoch: `model.train()`, all batch
steps in order, then one scheduler step (lines 79-99 of `train.py`). -/
def trainSegTrace (cfg : Config) (env : Env) (e : Nat) : List Event :=
  Event.setTrainMode e ::
    ((List.range cfg.trainBatches).flatMap (trainStepTrace env e)
      ++ [Event.schedStep e])

/-- Model parameters after the training batches of epoch `e`: one optimiser
update per batch, in order. -/
def paramsAfterEpoch (cfg : Config) (env : Env) (e : Nat) (p : Nat) : Nat :=
  (List.range cfg.trainBatches).foldl (fun q i => env.optimUpdate e i q) p

/-- Events of the validation loop body of `train()` (lines 111-124): a
no-grad forward and an `accelerator.gather` per validation batch; the metric
computations are pure and accumulate into the sums of `valAverages`. -/
def valLoopTrace (cfg : Config) (e : Nat) : List Event :=
  (List.range cfg.valBatches).flatMap
    (fun i => [Event.forwardPass e i true, Event.accelGather e i])

/-- Path of the training log file (`os.path.join(LOG_DIR, LOG_FILE)`). -/
def trainLogPath (cfg : Config) : String := joinPath cfg.logDir cfg.trainLogFile

/-- Path of the testing log file. -/
def testLogPath (cfg : Config) : String := joinPath cfg.logDir cfg.testLogFile

/-- The validation pass of `train()` at epoch `e` (lines 102-154): switch to
eval mode, run the validation loop, average the metrics; on strict PSNR
improvement update `best_psnr`/`best_epoch` and save a checkpoint whose
content is the single-key dictionary `{'state_dict': params}`, identified by
the epoch, session and save directory; then `accelerator.log` the metrics and,
on the local main process only, append one formatted line to the log file in
append mode. -/
def valPhase (cfg : Config) (env : Env) (isMain : Bool) (st : TrainState)
    (e : Nat) : List Event × TrainState :=
  let m := valAverages cfg env e
  let improved := st.bestPsnr < m.psnr
  let st' := if improved then { st with bestPsnr := m.psnr, bestEpoch := e } else st
  let ckptEvs := if improved then
      [Event.saveCheckpoint [("state_dict", CkptVal.params st.params)]
        e cfg.session cfg.saveDir]
    else []
  let logEvs := if isMain then
      [Event.logWrite (trainLogPath cfg) "a"
        (LogLine.trainStats e m.psnr m.ssim m.lpips m.uciqe m.uiqm
          st'.bestPsnr st'.bestEpoch)]
    else []
  (Event.setEvalMode e :: (valLoopTrace cfg e ++ ckptEvs
      ++ [Event.accelLogMetrics e m] ++ logEvs), st')

/-- One epoch of `train()`: the training segment (which updates the
parameters), then the validation pass when the epoch triggers one. -/
def runEpoch (cfg : Config) (env : Env) (isMain : Bool) (st : TrainState)
    (e : Nat) : List Event × TrainState :=
  let st1 : TrainState := { st with params := paramsAfterEpoch cfg env e st.params }
  if validatedB cfg e then
    let r := valPhase cfg env isMain st1 e
    (trainSegTrace cfg env e ++ r.1, r.2)
  else
    (trainSegTrace cfg env e, st1)

/-- Sequential composition of the epochs of `train()` over a list of epoch
numbers. -/
def runEpochs (cfg : Config) (env : Env) (isMain : Bool) :
    List Nat → TrainState → List Event × TrainState
  | [], st => ([], st)
  | e :: es, st =>
    let r1 := runEpoch cfg env isMain st e
    let r2 := runEpochs cfg env isMain es r1.2
    (r1.1 ++ r2.1, r2.2)

/-- Initial state of `train()`: initial model parameters, `best_psnr = 0`,
`best_epoch = 1`. -/
def initTrainState (env : Env) : TrainState :=
  { params := env.initParams, bestPsnr := 0, bestEpoch := 1 }

/-- A whole run of `train()`: save-directory creation (local main process
only), tracker initialisation, `accelerator.prepare`, the epoch loop over
epochs `1, …, NUM_EPOCHS`, and `accelerator.end_training`. -/
def trainRun (cfg : Config) (env : Env) (isMain : Bool) :
    List Event × TrainState :=
  let pre := (if isMain then [Event.makeSaveDir cfg.saveDir] else [])
      ++ [Event.accelInitTrackers, Event.accelPrepare]
  let r := runEpochs cfg env isMain (List.range' 1 cfg.numEpochs)
      (initTrainState env)
  (pre ++ r.1 ++ [Event.accelEndTraining], r.2)

/-- The event trace of a run of `train()`. -/
def trainTrace (cfg : Config) (env : Env) (isMain : Bool) : List Event :=
  (trainRun cfg env isMain).1

/-- The `train()` state after the first `k` epochs. -/
def stAfter (cfg : Config) (env : Env) (isMain : Bool) (k : Nat) : TrainState :=
  (runEpochs cfg env isMain (List.range' 1 k) (initTrainState env)).2

/-- Epochs among `1, …, k` that trigger a validation pass. -/
def validatedEpochs (cfg : Config) (k : Nat) : List Nat :=
  (List.range' 1 k).filter (fun e => validatedB cfg e)

/-- Specification-side running best: the maximum of 0 and the averaged PSNR of
every validation pass among the first `k` epochs. -/
def bestSpec (cfg : Config) (env : Env) (k : Nat) : ℚ :=
  (validatedEpochs cfg k).foldl (fun b e => max b (valAverages cfg env e).psnr) 0

/-- The per-sample loop of `test()` (lines 57-73 of `test.py`): a no-grad
forward, then create the result directory when it does not exist, then write
the restored image under the sample's original filename; the Boolean threads
whether the result directory exists. -/
def testLoop (cfg : Config) (env : Env) : List Nat → Bool → List Event × Bool
  | [], ex => ([], ex)
  | i :: is, ex =>
    let evs := Event.forwardPass 0 i true ::
      ((if ex then [] else [Event.mkdirResult cfg.resultDir])
        ++ [Event.writeImage cfg.resultDir (env.filename i)])
    let r := testLoop cfg env is true
    (evs ++ r.1, r.2)

/-- A whole run of `test()`: load the checkpoint, `accelerator.prepare`, eval
mode, the per-sample loop, then append the info line and the stats line to the
test log in append mode.  `test()` never branches on the process role, so the
`isMain` argument is unused: the trace is the same for every role. -/
def testRun (cfg : Config) (env : Env) (isMain : Bool) :
    List Event × Metrics :=
  let m := testAverages cfg env
  let r := testLoop cfg env (List.range cfg.valBatches) env.resultDirAtStart
  ([Event.loadCheckpoint cfg.weight, Event.accelPrepare, Event.setEvalMode 0]
      ++ r.1
      ++ [Event.logWrite (testLogPath cfg) "a"
            (LogLine.testInfo cfg.session cfg.weight cfg.testValDir),
          Event.logWrite (testLogPath cfg) "a"
            (LogLine.testStats m.psnr m.ssim m.lpips m.uciqe m.uiqm)], m)

/-- The event trace of a run of `test()`. -/
def testTrace (cfg : Config) (env : Env) (isMain : Bool) : List Event :=
  (testRun cfg env isMain).1

/-- Events that modify the model parameters: optimiser steps and checkpoint
loading. -/
def Event.updatesModel : Event → Bool
  | Event.optimStep _ _ => true
  | Event.loadCheckpoint _ => true
  | _ => false

/-- Events that are `accelerator` operations. -/
def Event.isAccelOp : Event → Bool
  | Event.accelInitTrackers => true
  | Event.accelPrepare => true
  | Event.accelBackward _ _ => true
  | Event.accelGather _ _ => true
  | Event.accelLogMetrics _ _ => true
  | Event.accelEndTraining => true
  | _ => false

/-- Events gated on `accelerator.is_local_main_process` in `train.py`
(lines 34-35 and 148-154): save-directory creation and log-file writing. -/
def Event.roleGated : Event → Bool
  | Event.makeSaveDir _ => true
  | Event.logWrite _ _ _ => true
  | _ => false

/-- Image-writing events. -/
def Event.isImageWrite : Event → Bool
  | Event.writeImage _ _ => true
  | _ => false

/-- Checkpoint-saving events. -/
def Event.isCkptSave : Event → Bool
  | Event.saveCheckpoint _ _ _ _ => true
  | _ => false

/-- Whether the formatted line interpolates the epoch number. -/
def LogLine.hasEpoch : LogLine → Bool
  | LogLine.trainStats _ _ _ _ _ _ _ _ => true
  | _ => false

/-- Whether the formatted line interpolates the five metric values. -/
def LogLine.hasMetrics : LogLine → Bool
  | LogLine.trainStats _ _ _ _ _ _ _ _ => true
  | LogLine.testStats _ _ _ _ _ => true
  | _ => false

/-- Errors a framework call can raise.  `divByZero` is Python's
`ZeroDivisionError`; `exn c` stands for any other exception, tagged by a
code. -/
inductive Err where
  | divByZero
  | exn (code : Nat)
  deriving DecidableEq

/-- The five metric accumulators of the scripts. -/
inductive MetricKind where
  | psnr | ssim | lpips | uciqe | uiqm
  deriving DecidableEq

/-- Call sites of the scripts, in program order, for the fallible model.  Each
constructor is one framework call (or one conditional block containing a
single call, such as the checkpoint save or the result-directory creation);
`divide m s` is the in-place average `acc /= size` with `s` the divisor. -/
inductive Instr where
  | makeSaveDir
  | initTrackers
  | prepareData
  | prepareModel
  | prepareOptim
  | loadCkpt
  | setTrain (e : Nat)
  | zeroGrad (e i : Nat)
  | forward (e i : Nat)
  | smoothL1Loss (e i : Nat)
  | ssimLoss (e i : Nat)
  | lpipsLoss (e i : Nat)
  | backward (e i : Nat)
  | optimStep (e i : Nat)
  | schedStep (e : Nat)
  | setEval (e : Nat)
  | valForward (e i : Nat)
  | gather (e i : Nat)
  | valMetric (m : MetricKind) (e i : Nat)
  | divide (m : MetricKind) (size : Nat)
  | ckptCheck (e : Nat)
  | accelLog (e : Nat)
  | writeLog (e : Nat)
  | testForward (i : Nat)
  | ensureDir (i : Nat)
  | saveImage (i : Nat)
  | testMetric (m : MetricKind) (i : Nat)
  | writeTestLog
  | endTraining
  deriving DecidableEq

/-- Call sites of one training batch (lines 86-97 of `train.py`). -/
def stepInstrs (e i : Nat) : List Instr :=
  [Instr.zeroGrad e i, Instr.forward e i, Instr.smoothL1Loss e i,
   Instr.ssimLoss e i, Instr.lpipsLoss e i, Instr.backward e i,
   Instr.optimStep e i]

/-- Call sites of one validation batch (lines 111-124 of `train.py`). -/
def valBatchInstrs (e i : Nat) : List Instr :=
  [Instr.valForward e i, Instr.gather e i,
   Instr.valMetric MetricKind.psnr e i, Instr.valMetric MetricKind.ssim e i,
   Instr.valMetric MetricKind.lpips e i, Instr.valMetric MetricKind.uciqe e i,
   Instr.valMetric MetricKind.uiqm e i]

/-- The five in-place averaging divisions (lines 126-130 of `train.py`,
lines 75-79 of `test.py`). -/
def divideInstrs (size : Nat) : List Instr :=
  [Instr.divide MetricKind.psnr size, Instr.divide MetricKind.ssim size,
   Instr.divide MetricKind.lpips size, Instr.divide MetricKind.uciqe size,
   Instr.divide MetricKind.uiqm size]

/-- Call sites of the validation pass at epoch `e` (lines 102-154 of
`train.py`). -/
def valInstrs (cfg : Config) (e : Nat) : List Instr :=
  Instr.setEval e ::
    ((List.range cfg.valBatches).flatMap (valBatchInstrs e)
      ++ divideInstrs cfg.valBatches
      ++ [Instr.ckptCheck e, Instr.accelLog e, Instr.writeLog e])

/-- Call sites of one epoch of `train()`. -/
def epochInstrs (cfg : Config) (e : Nat) : List Instr :=
  Instr.setTrain e ::
    ((List.range cfg.trainBatches).flatMap (stepInstrs e)
      ++ [Instr.schedStep e]
      ++ (if validatedB cfg e then valInstrs cfg e else []))

/-- Call sites of a whole run of `train()` in program order. -/
def trainProgram (cfg : Config) : List Instr :=
  [Instr.makeSaveDir, Instr.initTrackers, Instr.prepareData,
   Instr.prepareModel, Instr.prepareOptim]
    ++ (List.range' 1 cfg.numEpochs).flatMap (epochInstrs cfg)
    ++ [Instr.endTraining]

/-- Call sites of one sample of the `test()` loop (lines 57-73 of
`test.py`). -/
def testBatchInstrs (i : Nat) : List Instr :=
  [Instr.testForward i, Instr.ensureDir i, Instr.saveImage i,
   Instr.testMetric MetricKind.psnr i, Instr.testMetric MetricKind.ssim i,
   Instr.testMetric MetricKind.lpips i, Instr.testMetric MetricKind.uciqe i,
   Instr.testMetric MetricKind.uiqm i]

/-- Call sites of a whole run of `test()` in program order. -/
def testProgram (cfg : Config) : List Instr :=
  [Instr.prepareData, Instr.prepareModel, Instr.loadCkpt, Instr.setEval 0]
    ++ (List.range cfg.valBatches).flatMap testBatchInstrs
    ++ divideInstrs cfg.valBatches
    ++ [Instr.writeTestLog]

/-- Execution of a straight-line call sequence with no exception handler, as
in both scripts: each call either succeeds or raises; the first raise aborts
the run.  The result is the list of calls that completed and the propagated
error, if any. -/
def runScript (env : Instr → Except Err Unit) :
    List Instr → List Instr × Option Err
  | [] => ([], none)
  | i :: rest =>
    match env i with
    | Except.error er => ([], some er)
    | Except.ok _ =>
      let r := runScript env rest
      (i :: r.1, r.2)

/-- Whether a call site is one of the averaging divisions. -/
def Instr.isDivide : Instr → Bool
  | Instr.divide _ _ => true
  | _ => false

/-- Call semantics in which every framework call succeeds and only Python's
division raises, exactly when its divisor is zero. -/
def divSensitive : Instr → Except Err Unit := fun i =>
  match i with
  | Instr.divide _ s => if s = 0 then Except.error Err.divByZero else Except.ok ()
  | _ => Except.ok ()

/-- A small concrete configuration used by witnesses. -/
def cfg0 : Config :=
  { numEpochs := 1, valAfterEvery := 1, trainBatches := 1, valBatches := 1,
    session := "UW", saveDir := "ckpt", logDir := "log",
    trainLogFile := "train.txt", resultDir := "result",
    testLogFile := "test.txt", weight := "best.pth", testValDir := "val" }

/-- A small concrete environment used by witnesses: every metric oracle
returns 1, one optimiser step increments the parameters, and the result
directory does not exist at the start of `test()`. -/
def env0 : Env :=
  { smoothL1 := fun _ _ => 1, ssimMeasure := fun _ _ => 1,
    lpipsValue := fun _ _ => 1,
    valPsnr := fun _ _ => 1, valSsim := fun _ _ => 1, valLpips := fun _ _ => 1,
    valUciqe := fun _ _ => 1, valUiqm := fun _ _ => 1,
    testPsnr := fun _ => 1, testSsim := fun _ => 1, testLpips := fun _ => 1,
    testUciqe := fun _ => 1, testUiqm := fun _ => 1,
    optimUpdate := fun _ _ p => p + 1, initParams := 0,
    filename := fun i => "img" ++ toString i ++ ".png",
    resultDirAtStart := false }

/-- An environment whose validation PSNR is always negative, so that no
validation pass ever improves on the initial `best_psnr = 0`. -/
def envNeg : Env :=
  { env0 with valPsnr := fun _ _ => -1 }

/-- A configuration with an empty validation loader. -/
def cfgEmpty : Config :=
  { cfg0 with valBatches := 0 }

/-- Call semantics in which the checkpoint-loading call of `test()` raises
with code 7 and every other call succeeds. -/
def envBadLoad : Instr → Except Err Unit := fun i =>
  match i with
  | Instr.loadCkpt => Except.error (Err.exn 7)
  | _ => Except.ok ()

/-! ## Helper lemmas -/

theorem sumRange_eq_sum (f : Nat → ℚ) (n : Nat) :
    sumRange f n = ((List.range n).map f).sum := by
  have h : ∀ (l : List Nat) (c : ℚ),
      l.foldl (fun a i => a + f i) c = c + (l.map f).sum := by
    intro l
    induction l with
    | nil => intro c; simp
    | cons x xs ih => intro c; simp [ih, add_assoc]
  simpa using h (List.range n) 0

theorem mem_testLoop (cfg : Config) (env : Env) :
    ∀ (l : List Nat) (ex : Bool) (ev : Event),
      ev ∈ (testLoop cfg env l ex).1 →
        (∃ i, ev = Event.forwardPass 0 i true)
          ∨ ev = Event.mkdirResult cfg.resultDir
          ∨ (∃ i, ev = Event.writeImage cfg.resultDir (env.filename i)) := by
  intro l
  induction l with
  | nil => intro ex ev h; simp [testLoop] at h
  | cons i is ih =>
    intro ex ev h
    simp only [testLoop, List.cons_append, List.mem_cons, List.mem_append] at h
    rcases h with h | h | h
    · exact Or.inl ⟨i, h⟩
    · rcases ex with _ | _
      · simp at h
        rcases h with h | h
        · exact Or.inr (Or.inl h)
        · exact Or.inr (Or.inr ⟨i, h⟩)
      · simp at h
        exact Or.inr (Or.inr ⟨i, h⟩)
    · exact ih true ev h

theorem testLoop_filter_image (cfg : Config) (env : Env) :
    ∀ (l : List Nat) (ex : Bool),
      ((testLoop cfg env l ex).1.filter Event.isImageWrite)
        = l.map (fun i => Event.writeImage cfg.resultDir (env.filename i)) := by
  intro l
  induction l with
  | nil => intro ex; simp [testLoop]
  | cons i is ih =>
    intro ex
    rcases ex with _ | _ <;>
      simp [testLoop, List.filter_append, Event.isImageWrite, ih]

theorem mkdir_mem_testLoop_cons (cfg : Config) (env : Env) (i : Nat)
    (is : List Nat) :
    Event.mkdirResult cfg.resultDir ∈ (testLoop cfg env (i :: is) false).1 := by
  simp [testLoop]

theorem schedStep_not_mem_valPhase (cfg : Config) (env : Env) (m : Bool)
    (st : TrainState) (e e' : Nat) :
    Event.schedStep e' ∉ (valPhase cfg env m st e).1 := by
  by_cases hi : st.bestPsnr < (valAverages cfg env e).psnr <;>
    rcases m with _ | _ <;>
      simp [valPhase, valLoopTrace, hi]

theorem mem_valPhase_shape (cfg : Config) (env : Env) (m : Bool)
    (st : TrainState) (e : Nat) (ev : Event)
    (h : ev ∈ (valPhase cfg env m st e).1) :
    ev = Event.setEvalMode e
    ∨ (∃ i, ev = Event.forwardPass e i true)
    ∨ (∃ i, ev = Event.accelGather e i)
    ∨ (∃ kv s d, ev = Event.saveCheckpoint kv e s d)
    ∨ (∃ mt, ev = Event.accelLogMetrics e mt)
    ∨ (∃ l, ev = Event.logWrite (trainLogPath cfg) "a" l
        ∧ l.hasEpoch = true ∧ l.hasMetrics = true) := by
  by_cases hi : st.bestPsnr < (valAverages cfg env e).psnr
  · rcases m with _ | _
    · simp only [valPhase, if_pos hi, if_neg Bool.false_ne_true, valLoopTrace,
        List.mem_cons, List.mem_append, List.mem_flatMap, List.mem_range,
        List.mem_singleton, List.append_nil, List.not_mem_nil, or_false,
        or_assoc] at h
      rcases h with h | ⟨i, _, h | h⟩ | h | h
      · exact Or.inl h
      · exact Or.inr (Or.inl ⟨i, h⟩)
      · exact Or.inr (Or.inr (Or.inl ⟨i, h⟩))
      · exact Or.inr (Or.inr (Or.inr (Or.inl ⟨_, _, _, h⟩)))
      · exact Or.inr (Or.inr (Or.inr (Or.inr (Or.inl ⟨_, h⟩))))
    · simp only [valPhase, if_pos hi, if_true, valLoopTrace,
        List.mem_cons, List.mem_append, List.mem_flatMap, List.mem_range,
        List.mem_singleton, List.not_mem_nil, or_false, or_assoc] at h
      rcases h with h | ⟨i, _, h | h⟩ | h | h | h
      · exact Or.inl h
      · exact Or.inr (Or.inl ⟨i, h⟩)
      · exact Or.inr (Or.inr (Or.inl ⟨i, h⟩))
      · exact Or.inr (Or.inr (Or.inr (Or.inl ⟨_, _, _, h⟩)))
      · exact Or.inr (Or.inr (Or.inr (Or.inr (Or.inl ⟨_, h⟩))))
      · exact Or.inr (Or.inr (Or.inr (Or.inr (Or.inr ⟨_, h, rfl, rfl⟩))))
  · rcases m with _ | _
    · simp only [valPhase, if_neg hi, if_neg Bool.false_ne_true, valLoopTrace,
        List.mem_cons, List.mem_append, List.mem_flatMap, List.mem_range,
        List.mem_singleton, List.append_nil, List.not_mem_nil, or_false,
        or_assoc] at h
      rcases h with h | ⟨i, _, h | h⟩ | h
      · exact Or.inl h
      · exact Or.inr (Or.inl ⟨i, h⟩)
      · exact Or.inr (Or.inr (Or.inl ⟨i, h⟩))
      · exact Or.inr (Or.inr (Or.inr (Or.inr (Or.inl ⟨_, h⟩))))
    · simp only [valPhase, if_neg hi, if_true, valLoopTrace,
        List.mem_cons, List.mem_append, List.mem_flatMap, List.mem_range,
        List.mem_singleton, List.not_mem_nil, or_false, or_assoc] at h
      rcases h with h | ⟨i, _, h | h⟩ | h | h
      · exact Or.inl h
      · exact Or.inr (Or.inl ⟨i, h⟩)
      · exact Or.inr (Or.inr (Or.inl ⟨i, h⟩))
      · exact Or.inr (Or.inr (Or.inr (Or.inr (Or.inl ⟨_, h⟩))))
      · exact Or.inr (Or.inr (Or.inr (Or.inr (Or.inr ⟨_, h, rfl, rfl⟩))))

theorem schedStep_count_trainSeg (cfg : Config) (env : Env) (e : Nat) :
    (trainSegTrace cfg env e).count (Event.schedStep e) = 1 := by
  have h : ((List.range cfg.trainBatches).flatMap
      (trainStepTrace env e)).count (Event.schedStep e) = 0 := by
    rw [List.count_eq_zero]
    intro hmem
    rcases List.mem_flatMap.mp hmem with ⟨i, _, hi⟩
    simp [trainStepTrace] at hi
  simp [trainSegTrace, List.count_append, h, List.count_cons]

/-- C1: every reported metric value of the validation pass of `train()` and of
`test()` equals the sum of that metric's per-batch values divided by
`size = len(testloader)`, the number of elements yielded by the validation
loader; the validation pass reports exactly these averages via
`accelerator.log`, and `test()` returns exactly these averages. -/
theorem reported_metrics_are_sums_divided_by_size (cfg : Config) (env : Env)
    (m : Bool) (st : TrainState) (e : Nat) (b : Bool) :
    ((valAverages cfg env e).psnr
        = ((List.range cfg.valBatches).map (env.valPsnr e)).sum / (cfg.valBatches : ℚ))
    ∧ ((valAverages cfg env e).ssim
        = ((List.range cfg.valBatches).map (env.valSsim e)).sum / (cfg.valBatches : ℚ))
    ∧ ((valAverages cfg env e).lpips
        = ((List.range cfg.valBatches).map (env.valLpips e)).sum / (cfg.valBatches : ℚ))
    ∧ ((valAverages cfg env e).uciqe
        = ((List.range cfg.valBatches).map (env.valUciqe e)).sum / (cfg.valBatches : ℚ))
    ∧ ((valAverages cfg env e).uiqm
        = ((List.range cfg.valBatches).map (env.valUiqm e)).sum / (cfg.valBatches : ℚ))
    ∧ Event.accelLogMetrics e (valAverages cfg env e) ∈ (valPhase cfg env m st e).1
    ∧ ((testAverages cfg env).psnr
        = ((List.range cfg.valBatches).map env.testPsnr).sum / (cfg.valBatches : ℚ))
    ∧ ((testAverages cfg env).ssim
        = ((List.range cfg.valBatches).map env.testSsim).sum / (cfg.valBatches : ℚ))
    ∧ ((testAverages cfg env).lpips
        = ((List.range cfg.valBatches).map env.testLpips).sum / (cfg.valBatches : ℚ))
    ∧ ((testAverages cfg env).uciqe
        = ((List.range cfg.valBatches).map env.testUciqe).sum / (cfg.valBatches : ℚ))
    ∧ ((testAverages cfg env).uiqm
        = ((List.range cfg.valBatches).map env.testUiqm).sum / (cfg.valBatches : ℚ))
    ∧ (testRun cfg env b).2 = testAverages cfg env := by
  refine ⟨?_, ?_, ?_, ?_, ?_, ?_, ?_, ?_, ?_, ?_, ?_, ?_⟩ <;>
    simp [valAverages, testAverages, sumRange_eq_sum, valPhase, testRun]

/-- C2: in every epoch of `train()` and every training batch within it, the
steps occur in the fixed order zero-grad, forward, loss computation (SmoothL1
term plus 0.3 times the SSIM term plus 0.7 times the LPIPS term), backward,
optimiser step; the scheduler steps exactly once per epoch, after all batches
of that epoch (and before any validation events). -/
theorem train_batch_order_and_scheduler_once (cfg : Config) (env : Env)
    (m : Bool) (st : TrainState) (e : Nat) :
    ((runEpoch cfg env m st e).1
        = trainSegTrace cfg env e
          ++ (if validatedB cfg e then
                (valPhase cfg env m
                  { st with params := paramsAfterEpoch cfg env e st.params } e).1
              else []))
    ∧ (trainSegTrace cfg env e
        = Event.setTrainMode e ::
            ((List.range cfg.trainBatches).flatMap (trainStepTrace env e)
              ++ [Event.schedStep e]))
    ∧ (∀ i, trainStepTrace env e i
        = [Event.zeroGrad e i, Event.forwardPass e i false,
           Event.lossCompute e i
             (env.smoothL1 e i + (3 : ℚ) / 10 * (1 - env.ssimMeasure e i)
               + (7 : ℚ) / 10 * env.lpipsValue e i),
           Event.accelBackward e i, Event.optimStep e i])
    ∧ ((runEpoch cfg env m st e).1.count (Event.schedStep e) = 1) := by
  refine ⟨?_, rfl, fun i => rfl, ?_⟩
  · by_cases hv : validatedB cfg e <;> simp [runEpoch, hv]
  · by_cases hv : validatedB cfg e <;>
      simp [runEpoch, hv, List.count_append, schedStep_count_trainSeg,
        List.count_eq_zero.mpr (schedStep_not_mem_valPhase cfg env m _ e e)]

/-- C4: `test()` writes exactly one restored image per sample of the
evaluation set, to the configured result directory under the sample's
original filename (so the number of images written equals the number of
samples iterated), and the result directory is created when it does not
exist. -/
theorem test_writes_one_image_per_sample (cfg : Config) (env : Env) (b : Bool) :
    ((testTrace cfg env b).filter Event.isImageWrite
        = (List.range cfg.valBatches).map
            (fun i => Event.writeImage cfg.resultDir (env.filename i)))
    ∧ (((testTrace cfg env b).filter Event.isImageWrite).length = cfg.valBatches)
    ∧ (env.resultDirAtStart = false → 0 < cfg.valBatches →
        Event.mkdirResult cfg.resultDir ∈ testTrace cfg env b) := by
  have hfil : (testTrace cfg env b).filter Event.isImageWrite
      = (List.range cfg.valBatches).map
          (fun i => Event.writeImage cfg.resultDir (env.filename i)) := by
    simp [testTrace, testRun, List.filter_append, Event.isImageWrite,
      testLoop_filter_image]
  refine ⟨hfil, by rw [hfil]; simp, ?_⟩
  intro hex hn
  rcases hk : cfg.valBatches with _ | k
  · omega
  · have hr : List.range (k + 1) = 0 :: List.range' 1 k := by
      simp [List.range_eq_range', List.range'_succ]
    have hmem := mkdir_mem_testLoop_cons cfg env 0 (List.range' 1 k)
    simp only [testTrace, testRun, List.mem_append]
    refine Or.inl (Or.inr ?_)
    rw [hk, hr, hex]
    exact hmem

/-- C10: evaluation never modifies the model: the validation phase of
`train()` leaves the parameters unchanged, contains no optimiser step or
checkpoint load, puts the model in eval mode first and runs every forward
pass under `torch.no_grad()`; likewise the `test()` loop contains no
model-updating event and only no-grad forward passes, with eval mode set (and
the checkpoint loaded) before the loop. -/
theorem evaluation_does_not_modify_model (cfg : Config) (env : Env) (m : Bool)
    (st : TrainState) (e : Nat) (b : Bool) :
    ((valPhase cfg env m st e).2.params = st.params)
    ∧ (∀ ev ∈ (valPhase cfg env m st e).1, ev.updatesModel = false)
    ∧ (∀ e' i g, Event.forwardPass e' i g ∈ (valPhase cfg env m st e).1 → g = true)
    ∧ ((valPhase cfg env m st e).1.head? = some (Event.setEvalMode e))
    ∧ (testTrace cfg env b
        = [Event.loadCheckpoint cfg.weight, Event.accelPrepare,
            Event.setEvalMode 0]
          ++ (testLoop cfg env (List.range cfg.valBatches) env.resultDirAtStart).1
          ++ [Event.logWrite (testLogPath cfg) "a"
                (LogLine.testInfo cfg.session cfg.weight cfg.testValDir),
              Event.logWrite (testLogPath cfg) "a"
                (LogLine.testStats (testAverages cfg env).psnr
                  (testAverages cfg env).ssim (testAverages cfg env).lpips
                  (testAverages cfg env).uciqe (testAverages cfg env).uiqm)])
    ∧ (∀ ev ∈ (testLoop cfg env (List.range cfg.valBatches)
          env.resultDirAtStart).1, ev.updatesModel = false)
    ∧ (∀ e' i g, Event.forwardPass e' i g ∈ (testLoop cfg env
          (List.range cfg.valBatches) env.resultDirAtStart).1 → g = true) := by
  refine ⟨?_, ?_, ?_, ?_, rfl, ?_, ?_⟩
  · by_cases hi : st.bestPsnr < (valAverages cfg env e).psnr <;>
      simp [valPhase, hi]
  · intro ev hev
    rcases mem_valPhase_shape cfg env m st e ev hev with
      rfl | ⟨i, rfl⟩ | ⟨i, rfl⟩ | ⟨kv, s, d, rfl⟩ | ⟨mt, rfl⟩ | ⟨l, rfl, _, _⟩ <;>
      rfl
  · intro e' i g hev
    rcases mem_valPhase_shape cfg env m st e _ hev with
      h | ⟨j, h⟩ | ⟨j, h⟩ | ⟨kv, s, d, h⟩ | ⟨mt, h⟩ | ⟨l, h, _, _⟩ <;>
      simp at h
    exact h.2.2
  · rfl
  · intro ev hev
    rcases mem_testLoop cfg env _ _ ev hev with ⟨i, rfl⟩ | rfl | ⟨i, rfl⟩ <;> rfl
  · intro e' i g hev
    rcases mem_testLoop cfg env _ _ (Event.forwardPass e' i g) hev with
      ⟨j, hj⟩ | hj | ⟨j, hj⟩ <;> simp at hj
    exact hj.2.2

theorem test_writes_one_image_per_sample_witness :
    Event.mkdirResult cfg0.resultDir ∈ testTrace cfg0 env0 true :=
  (test_writes_one_image_per_sample cfg0 env0 true).2.2 rfl (by decide)

theorem evaluation_does_not_modify_model_witness :
    (valPhase cfg0 env0 true (initTrainState env0) 1).2.params
        = (initTrainState env0).params
    ∧ (Event.forwardPass 1 0 true).updatesModel = false := by
  refine ⟨(evaluation_does_not_modify_model cfg0 env0 true
    (initTrainState env0) 1 true).1, ?_⟩
  exact (evaluation_does_not_modify_model cfg0 env0 true
    (initTrainState env0) 1 true).2.1 (Event.forwardPass 1 0 true)
    (by simp [valPhase, valLoopTrace, cfg0])

/-- C5 counterexample: `test()` appends to its log file a JSON-encoded info
line that interpolates neither the metric values nor any epoch, so it is not
the case that every appended line contains the metric values and the
epoch. -/
theorem test_log_line_without_epoch_or_metrics :
    Event.logWrite (testLogPath cfg0) "a"
        (LogLine.testInfo cfg0.session cfg0.weight cfg0.testValDir)
      ∈ testTrace cfg0 env0 true
    ∧ (LogLine.testInfo cfg0.session cfg0.weight cfg0.testValDir).hasEpoch = false
    ∧ (LogLine.testInfo cfg0.session cfg0.weight
        cfg0.testValDir).hasMetrics = false := by
  refine ⟨?_, rfl, rfl⟩
  simp [testTrace, testRun]

/-- C5 (amended): every log line appended by `train()` is written in append
mode to the training log path and interpolates both the epoch and the five
metric values; `test()` appends, in append mode to the testing log path,
exactly two kinds of line: the info line (session, checkpoint, data
directory; no metrics, no epoch) and the stats line carrying the five
averaged metric values (no epoch); neither script opens a log file in any
other mode. -/
theorem log_lines_mode_and_content (cfg : Config) (env : Env) :
    (∀ (m : Bool) (p md : String) (l : LogLine),
        Event.logWrite p md l ∈ trainTrace cfg env m →
          md = "a" ∧ p = trainLogPath cfg
            ∧ l.hasEpoch = true ∧ l.hasMetrics = true)
    ∧ (∀ (b : Bool) (p md : String) (l : LogLine),
        Event.logWrite p md l ∈ testTrace cfg env b →
          md = "a" ∧ p = testLogPath cfg
            ∧ (l = LogLine.testInfo cfg.session cfg.weight cfg.testValDir
                ∨ l = LogLine.testStats (testAverages cfg env).psnr
                    (testAverages cfg env).ssim (testAverages cfg env).lpips
                    (testAverages cfg env).uciqe (testAverages cfg env).uiqm)) := by
  constructor
  · intro m p md l hmem
    have hmem' : Event.logWrite p md l
        ∈ (runEpochs cfg env m (List.range' 1 cfg.numEpochs)
            (initTrainState env)).1 := by
      rcases m with _ | _ <;>
        simpa [trainTrace, trainRun] using hmem
    clear hmem
    generalize (initTrainState env) = st at hmem'
    generalize List.range' 1 cfg.numEpochs = es at hmem'
    induction es generalizing st with
    | nil => simp [runEpochs] at hmem'
    | cons e es ih =>
      simp only [runEpochs, List.mem_append] at hmem'
      rcases hmem' with h | h
      · by_cases hv : validatedB cfg e
        · simp only [runEpoch, if_pos hv, List.mem_append] at h
          rcases h with h | h
          · simp [trainSegTrace, trainStepTrace] at h
          · rcases mem_valPhase_shape cfg env m _ e _ h with
              h | ⟨i, h⟩ | ⟨i, h⟩ | ⟨kv, s, d, h⟩ | ⟨mt, h⟩ | ⟨l', h, h1, h2⟩
            · simp at h
            · simp at h
            · simp at h
            · simp at h
            · simp at h
            · simp only [Event.logWrite.injEq] at h
              obtain ⟨hp, hmd, hl⟩ := h
              subst hp; subst hmd; subst hl
              exact ⟨rfl, rfl, h1, h2⟩
        · simp only [runEpoch, if_neg hv] at h
          simp [trainSegTrace, trainStepTrace] at h
      · exact ih _ h
  · intro b p md l hmem
    simp only [testTrace, testRun, List.cons_append, List.nil_append,
      List.mem_append, List.mem_cons, List.mem_singleton, List.not_mem_nil,
      or_false, or_assoc] at hmem
    rcases hmem with h | h | h | h | h | h
    · simp at h
    · simp at h
    · simp at h
    · rcases mem_testLoop cfg env _ _ _ h with ⟨i, hj⟩ | hj | ⟨i, hj⟩ <;>
        simp at hj
    · simp only [Event.logWrite.injEq] at h
      obtain ⟨hp, hmd, hl⟩ := h
      subst hp; subst hmd; subst hl
      exact ⟨rfl, rfl, Or.inl rfl⟩
    · simp only [Event.logWrite.injEq] at h
      obtain ⟨hp, hmd, hl⟩ := h
      subst hp; subst hmd; subst hl
      exact ⟨rfl, rfl, Or.inr rfl⟩

theorem mem_trainSeg_shape (cfg : Config) (env : Env) (e : Nat) (ev : Event)
    (h : ev ∈ trainSegTrace cfg env e) :
    ev = Event.setTrainMode e
    ∨ (∃ i, ev = Event.zeroGrad e i)
    ∨ (∃ i, ev = Event.forwardPass e i false)
    ∨ (∃ i, ev = Event.lossCompute e i (trainLoss env e i))
    ∨ (∃ i, ev = Event.accelBackward e i)
    ∨ (∃ i, ev = Event.optimStep e i)
    ∨ ev = Event.schedStep e := by
  simp only [trainSegTrace, trainStepTrace, List.mem_cons, List.mem_append,
    List.mem_flatMap, List.mem_range, List.mem_singleton, List.not_mem_nil,
    or_false, or_assoc] at h
  rcases h with h | ⟨i, _, h | h | h | h | h⟩ | h
  · exact Or.inl h
  · exact Or.inr (Or.inl ⟨i, h⟩)
  · exact Or.inr (Or.inr (Or.inl ⟨i, h⟩))
  · exact Or.inr (Or.inr (Or.inr (Or.inl ⟨i, h⟩)))
  · exact Or.inr (Or.inr (Or.inr (Or.inr (Or.inl ⟨i, h⟩))))
  · exact Or.inr (Or.inr (Or.inr (Or.inr (Or.inr (Or.inl ⟨i, h⟩)))))
  · exact Or.inr (Or.inr (Or.inr (Or.inr (Or.inr (Or.inr h)))))

theorem forall_mem_runEpochs (cfg : Config) (env : Env) (m : Bool)
    (P : Event → Prop)
    (hseg : ∀ e ev, ev ∈ trainSegTrace cfg env e → P ev)
    (hval : ∀ st e ev, ev ∈ (valPhase cfg env m st e).1 → P ev) :
    ∀ (es : List Nat) (st : TrainState) (ev : Event),
      ev ∈ (runEpochs cfg env m es st).1 → P ev := by
  intro es
  induction es with
  | nil => intro st ev h; simp [runEpochs] at h
  | cons e es ih =>
    intro st ev h
    simp only [runEpochs, List.mem_append] at h
    rcases h with h | h
    · by_cases hv : validatedB cfg e
      · simp only [runEpoch, if_pos hv, List.mem_append] at h
        rcases h with h | h
        · exact hseg e ev h
        · exact hval _ e ev h
      · simp only [runEpoch, if_neg hv] at h
        exact hseg e ev h
    · exact ih _ ev h

theorem makeSaveDir_not_mem_runEpochs (cfg : Config) (env : Env) (m : Bool)
    (dir : String) (es : List Nat) (st : TrainState) :
    Event.makeSaveDir dir ∉ (runEpochs cfg env m es st).1 := by
  intro h
  refine forall_mem_runEpochs cfg env m (fun ev => ev ≠ Event.makeSaveDir dir)
    ?_ ?_ es st _ h rfl
  · intro e ev hm
    rcases mem_trainSeg_shape cfg env e ev hm with
      rfl | ⟨i, rfl⟩ | ⟨i, rfl⟩ | ⟨i, rfl⟩ | ⟨i, rfl⟩ | ⟨i, rfl⟩ | rfl <;> simp
  · intro st' e ev hm
    rcases mem_valPhase_shape cfg env m st' e ev hm with
      rfl | ⟨i, rfl⟩ | ⟨i, rfl⟩ | ⟨kv, s, d, rfl⟩ | ⟨mt, rfl⟩ | ⟨l, rfl, _, _⟩ <;>
      simp

/-- C7 counterexample: the control flow of `train()` does depend on the
process's role in the distributed setup: on the local main process the run
creates the save directory and appends to the log file, so the same
configuration and oracles produce different event traces for the two
roles. -/
theorem train_control_flow_depends_on_role :
    trainTrace cfg0 env0 true ≠ trainTrace cfg0 env0 false := by
  intro hEq
  have h1 : Event.makeSaveDir cfg0.saveDir ∈ trainTrace cfg0 env0 true := by
    simp [trainTrace, trainRun]
  have h2 : Event.makeSaveDir cfg0.saveDir ∉ trainTrace cfg0 env0 false := by
    intro h
    simp only [trainTrace, trainRun, if_neg Bool.false_ne_true,
      List.nil_append, List.cons_append, List.mem_append, List.mem_cons,
      List.mem_singleton, List.not_mem_nil, or_false, or_assoc] at h
    rcases h with h | h | h | h
    · simp at h
    · simp at h
    · exact makeSaveDir_not_mem_runEpochs cfg0 env0 false cfg0.saveDir _ _ h
    · simp at h
  exact h2 (hEq ▸ h1)

theorem valPhase_roleFilter (cfg : Config) (env : Env) (st : TrainState)
    (e : Nat) (m m' : Bool) :
    (valPhase cfg env m st e).1.filter (fun ev => !ev.roleGated)
      = (valPhase cfg env m' st e).1.filter (fun ev => !ev.roleGated) := by
  rcases m with _ | _ <;> rcases m' with _ | _ <;>
    by_cases hi : st.bestPsnr < (valAverages cfg env e).psnr <;>
      simp [valPhase, hi, List.filter_append, Event.roleGated]

theorem runEpoch_snd_role (cfg : Config) (env : Env) (st : TrainState)
    (e : Nat) (m m' : Bool) :
    (runEpoch cfg env m st e).2 = (runEpoch cfg env m' st e).2 := by
  by_cases hv : validatedB cfg e <;>
    by_cases hi : st.bestPsnr < (valAverages cfg env e).psnr <;>
      simp [runEpoch, valPhase, hv, hi]

theorem runEpoch_roleFilter (cfg : Config) (env : Env) (st : TrainState)
    (e : Nat) (m m' : Bool) :
    (runEpoch cfg env m st e).1.filter (fun ev => !ev.roleGated)
      = (runEpoch cfg env m' st e).1.filter (fun ev => !ev.roleGated) := by
  by_cases hv : validatedB cfg e <;>
    simp [runEpoch, hv, List.filter_append, valPhase_roleFilter cfg env _ e m m']

theorem runEpochs_roleFilter (cfg : Config) (env : Env) (m m' : Bool) :
    ∀ (es : List Nat) (st : TrainState),
      (runEpochs cfg env m es st).1.filter (fun ev => !ev.roleGated)
        = (runEpochs cfg env m' es st).1.filter (fun ev => !ev.roleGated) := by
  intro es
  induction es with
  | nil => intro st; simp [runEpochs]
  | cons e es ih =>
    intro st
    simp only [runEpochs, List.filter_append]
    rw [runEpoch_roleFilter cfg env st e m m', ih ((runEpoch cfg env m st e).2),
      runEpoch_snd_role cfg env st e m m']

/-- C7 (amended): apart from gating save-directory creation and log-file
writing (and console/progress display) on the local main process in
`train()`, the scripts make no concurrency decisions: with those role-gated
events removed, the trace of `train()` is identical for every process role;
the trace of `test()` is identical for every role outright; and the only
`accelerator` operations either script performs are `prepare`, `gather` and
`backward` together with the tracker operations (`init_trackers`, `log`,
`end_training`) — `test()` performs only `prepare`. -/
theorem role_dependence_only_gates_dir_and_log (cfg : Config) (env : Env) :
    ((trainTrace cfg env true).filter (fun ev => !ev.roleGated)
        = (trainTrace cfg env false).filter (fun ev => !ev.roleGated))
    ∧ (∀ b₁ b₂, testTrace cfg env b₁ = testTrace cfg env b₂)
    ∧ (∀ (m : Bool) (ev : Event), ev ∈ trainTrace cfg env m →
        ev.isAccelOp = true →
          ev = Event.accelPrepare ∨ ev = Event.accelInitTrackers
            ∨ ev = Event.accelEndTraining
            ∨ (∃ e i, ev = Event.accelBackward e i)
            ∨ (∃ e i, ev = Event.accelGather e i)
            ∨ (∃ e mt, ev = Event.accelLogMetrics e mt))
    ∧ (∀ (b : Bool) (ev : Event), ev ∈ testTrace cfg env b →
        ev.isAccelOp = true → ev = Event.accelPrepare) := by
  refine ⟨?_, fun b₁ b₂ => rfl, ?_, ?_⟩
  · simp only [trainTrace, trainRun, if_true, if_neg Bool.false_ne_true,
      List.nil_append, List.filter_append]
    rw [runEpochs_roleFilter cfg env true false]
    simp [Event.roleGated]
  · intro m ev _ hacc
    cases ev <;> simp [Event.isAccelOp] at hacc <;> simp
  · intro b ev hmem hacc
    simp only [testTrace, testRun, List.cons_append, List.nil_append,
      List.mem_append, List.mem_cons, List.mem_singleton, List.not_mem_nil,
      or_false, or_assoc] at hmem
    rcases hmem with rfl | rfl | rfl | h | rfl | rfl
    · simp [Event.isAccelOp] at hacc
    · rfl
    · simp [Event.isAccelOp] at hacc
    · rcases mem_testLoop cfg env _ _ ev h with ⟨i, rfl⟩ | rfl | ⟨i, rfl⟩ <;>
        simp [Event.isAccelOp] at hacc
    · simp [Event.isAccelOp] at hacc
    · simp [Event.isAccelOp] at hacc

theorem role_dependence_only_gates_dir_and_log_witness :
    (testTrace cfg0 env0 true = testTrace cfg0 env0 false)
    ∧ Event.accelPrepare = Event.accelPrepare :=
  ⟨(role_dependence_only_gates_dir_and_log cfg0 env0).2.1 true false,
    (role_dependence_only_gates_dir_and_log cfg0 env0).2.2.2 true
      Event.accelPrepare (by simp [testTrace, testRun]) rfl⟩

theorem range'_one_concat (k : Nat) :
    List.range' 1 (k + 1) = List.range' 1 k ++ [k + 1] := by
  have h := List.range'_append 1 k 1 1
  simp only [List.range'_one, Nat.one_mul] at h
  simpa [Nat.add_comm] using h.symm

theorem runEpochs_append (cfg : Config) (env : Env) (m : Bool)
    (l₁ l₂ : List Nat) (st : TrainState) :
    runEpochs cfg env m (l₁ ++ l₂) st
      = ((runEpochs cfg env m l₁ st).1
            ++ (runEpochs cfg env m l₂ (runEpochs cfg env m l₁ st).2).1,
         (runEpochs cfg env m l₂ (runEpochs cfg env m l₁ st).2).2) := by
  induction l₁ generalizing st with
  | nil => simp [runEpochs]
  | cons e es ih => simp [runEpochs, ih, List.append_assoc]

theorem stAfter_zero (cfg : Config) (env : Env) (m : Bool) :
    stAfter cfg env m 0 = initTrainState env := by
  simp [stAfter, runEpochs]

theorem stAfter_succ (cfg : Config) (env : Env) (m : Bool) (k : Nat) :
    stAfter cfg env m (k + 1)
      = (runEpoch cfg env m (stAfter cfg env m k) (k + 1)).2 := by
  unfold stAfter
  rw [range'_one_concat, runEpochs_append]
  simp [runEpochs]

theorem runEpoch_snd (cfg : Config) (env : Env) (m : Bool) (st : TrainState)
    (e : Nat) :
    (runEpoch cfg env m st e).2
      = if validatedB cfg e ∧ st.bestPsnr < (valAverages cfg env e).psnr then
          { params := paramsAfterEpoch cfg env e st.params,
            bestPsnr := (valAverages cfg env e).psnr, bestEpoch := e }
        else
          { params := paramsAfterEpoch cfg env e st.params,
            bestPsnr := st.bestPsnr, bestEpoch := st.bestEpoch } := by
  by_cases hv : validatedB cfg e <;>
    by_cases hi : st.bestPsnr < (valAverages cfg env e).psnr <;>
      simp [runEpoch, valPhase, hv, hi]

theorem runEpoch_bestPsnr (cfg : Config) (env : Env) (m : Bool)
    (st : TrainState) (e : Nat) :
    (runEpoch cfg env m st e).2.bestPsnr
      = if validatedB cfg e then max st.bestPsnr (valAverages cfg env e).psnr
        else st.bestPsnr := by
  rw [runEpoch_snd]
  by_cases hv : validatedB cfg e <;>
    by_cases hi : st.bestPsnr < (valAverages cfg env e).psnr <;>
      simp [hv, hi]
  · exact le_of_lt hi
  · exact not_lt.mp hi

theorem bestSpec_zero (cfg : Config) (env : Env) : bestSpec cfg env 0 = 0 := by
  simp [bestSpec, validatedEpochs]

theorem bestSpec_succ (cfg : Config) (env : Env) (k : Nat) :
    bestSpec cfg env (k + 1)
      = if validatedB cfg (k + 1) then
          max (bestSpec cfg env k) (valAverages cfg env (k + 1)).psnr
        else bestSpec cfg env k := by
  by_cases hv : validatedB cfg (k + 1) <;>
    simp [bestSpec, validatedEpochs, range'_one_concat, List.filter_append,
      hv, List.foldl_append]

theorem stAfter_bestPsnr (cfg : Config) (env : Env) (m : Bool) (k : Nat) :
    (stAfter cfg env m k).bestPsnr = bestSpec cfg env k := by
  induction k with
  | zero => simp [stAfter_zero, initTrainState, bestSpec_zero]
  | succ k ih => rw [stAfter_succ, runEpoch_bestPsnr, ih, bestSpec_succ]

theorem bestSpec_nonneg (cfg : Config) (env : Env) (k : Nat) :
    0 ≤ bestSpec cfg env k := by
  induction k with
  | zero => simp [bestSpec_zero]
  | succ k ih =>
    rw [bestSpec_succ]
    by_cases hv : validatedB cfg (k + 1)
    · rw [if_pos hv]; exact le_trans ih (le_max_left _ _)
    · rw [if_neg hv]; exact ih

theorem bestSpec_le_succ (cfg : Config) (env : Env) (k : Nat) :
    bestSpec cfg env k ≤ bestSpec cfg env (k + 1) := by
  rw [bestSpec_succ]
  by_cases hv : validatedB cfg (k + 1)
  · rw [if_pos hv]; exact le_max_left _ _
  · rw [if_neg hv]

theorem save_mem_valPhase (cfg : Config) (env : Env) (m : Bool)
    (st : TrainState) (e : Nat) (kv : List (String × CkptVal)) (e' : Nat)
    (s d : String) :
    Event.saveCheckpoint kv e' s d ∈ (valPhase cfg env m st e).1 ↔
      (st.bestPsnr < (valAverages cfg env e).psnr
        ∧ kv = [("state_dict", CkptVal.params st.params)]
        ∧ e' = e ∧ s = cfg.session ∧ d = cfg.saveDir) := by
  by_cases hi : st.bestPsnr < (valAverages cfg env e).psnr <;>
    rcases m with _ | _ <;>
      simp [valPhase, valLoopTrace, hi]

theorem save_not_mem_trainSeg (cfg : Config) (env : Env) (e : Nat)
    (kv : List (String × CkptVal)) (e' : Nat) (s d : String) :
    Event.saveCheckpoint kv e' s d ∉ trainSegTrace cfg env e := by
  intro h
  rcases mem_trainSeg_shape cfg env e _ h with
    h | ⟨i, h⟩ | ⟨i, h⟩ | ⟨i, h⟩ | ⟨i, h⟩ | ⟨i, h⟩ | h <;> simp at h

theorem save_mem_runEpoch (cfg : Config) (env : Env) (m : Bool)
    (st : TrainState) (e : Nat) (kv : List (String × CkptVal)) (e' : Nat)
    (s d : String) :
    Event.saveCheckpoint kv e' s d ∈ (runEpoch cfg env m st e).1 ↔
      (validatedB cfg e = true
        ∧ st.bestPsnr < (valAverages cfg env e).psnr
        ∧ kv = [("state_dict",
            CkptVal.params (paramsAfterEpoch cfg env e st.params))]
        ∧ e' = e ∧ s = cfg.session ∧ d = cfg.saveDir) := by
  by_cases hv : validatedB cfg e
  · simp only [runEpoch, if_pos hv, List.mem_append]
    rw [save_mem_valPhase]
    simp [save_not_mem_trainSeg cfg env e kv e' s d, hv]
  · simp only [runEpoch, if_neg hv]
    simp [save_not_mem_trainSeg cfg env e kv e' s d]
    intro h
    simp [h] at hv

theorem save_mem_runEpochs_range (cfg : Config) (env : Env) (m : Bool)
    (kv : List (String × CkptVal)) (e : Nat) (s d : String) (k : Nat) :
    Event.saveCheckpoint kv e s d
        ∈ (runEpochs cfg env m (List.range' 1 k) (initTrainState env)).1 ↔
      (1 ≤ e ∧ e ≤ k ∧ validatedB cfg e = true
        ∧ bestSpec cfg env (e - 1) < (valAverages cfg env e).psnr
        ∧ kv = [("state_dict", CkptVal.params
            (paramsAfterEpoch cfg env e (stAfter cfg env m (e - 1)).params))]
        ∧ s = cfg.session ∧ d = cfg.saveDir) := by
  induction k with
  | zero =>
    simp only [List.range', runEpochs, List.not_mem_nil, false_iff]
    rintro ⟨h1, h2, -⟩
    omega
  | succ k ih =>
    rw [range'_one_concat]
    have happ := runEpochs_append cfg env m (List.range' 1 k) [k + 1]
      (initTrainState env)
    rw [happ]
    simp only [List.mem_append]
    have hsingle : (runEpochs cfg env m [k + 1]
        (runEpochs cfg env m (List.range' 1 k) (initTrainState env)).2).1
        = (runEpoch cfg env m (stAfter cfg env m k) (k + 1)).1 := by
      simp [runEpochs, stAfter]
    rw [hsingle, ih, save_mem_runEpoch]
    have hbest : (stAfter cfg env m k).bestPsnr = bestSpec cfg env k :=
      stAfter_bestPsnr cfg env m k
    constructor
    · rintro (⟨h1, h2, h3, h4, h5, h6, h7⟩ | ⟨h1, h2, h3, h4, h5, h6⟩)
      · exact ⟨h1, le_trans h2 (Nat.le_succ k), h3, h4, h5, h6, h7⟩
      · subst h4
        refine ⟨by omega, le_refl _, h1, ?_, ?_, h5, h6⟩
        · rw [Nat.add_sub_cancel, ← hbest]; exact h2
        · rw [Nat.add_sub_cancel]; exact h3
    · rintro ⟨h1, h2, h3, h4, h5, h6, h7⟩
      rcases Nat.lt_or_ge e (k + 1) with hlt | hge
      · exact Or.inl ⟨h1, by omega, h3, h4, h5, h6, h7⟩
      · have he : e = k + 1 := by omega
        subst he
        rw [Nat.add_sub_cancel] at h4 h5
        exact Or.inr ⟨h3, by rw [hbest]; exact h4, h5, rfl, h6, h7⟩

theorem save_mem_trainTrace (cfg : Config) (env : Env) (m : Bool)
    (kv : List (String × CkptVal)) (e : Nat) (s d : String) :
    Event.saveCheckpoint kv e s d ∈ trainTrace cfg env m ↔
      (1 ≤ e ∧ e ≤ cfg.numEpochs ∧ validatedB cfg e = true
        ∧ bestSpec cfg env (e - 1) < (valAverages cfg env e).psnr
        ∧ kv = [("state_dict", CkptVal.params
            (paramsAfterEpoch cfg env e (stAfter cfg env m (e - 1)).params))]
        ∧ s = cfg.session ∧ d = cfg.saveDir) := by
  rw [← save_mem_runEpochs_range cfg env m kv e s d cfg.numEpochs]
  rcases m with _ | _ <;>
    simp [trainTrace, trainRun]

theorem stAfter_attained (cfg : Config) (env : Env) (m : Bool) (k : Nat) :
    (0 < (stAfter cfg env m k).bestPsnr →
      validatedB cfg (stAfter cfg env m k).bestEpoch = true
        ∧ 1 ≤ (stAfter cfg env m k).bestEpoch
        ∧ (stAfter cfg env m k).bestEpoch ≤ k
        ∧ (valAverages cfg env (stAfter cfg env m k).bestEpoch).psnr
            = (stAfter cfg env m k).bestPsnr)
    ∧ ((stAfter cfg env m k).bestPsnr = 0 →
        (stAfter cfg env m k).bestEpoch = 1) := by
  induction k with
  | zero =>
    rw [stAfter_zero]
    exact ⟨fun h => absurd h (by simp [initTrainState]), fun _ => rfl⟩
  | succ k ih =>
    rw [stAfter_succ, runEpoch_snd]
    by_cases hc : validatedB cfg (k + 1) = true
        ∧ (stAfter cfg env m k).bestPsnr < (valAverages cfg env (k + 1)).psnr
    · rw [if_pos hc]
      constructor
      · intro _
        exact ⟨hc.1, Nat.succ_le_succ (Nat.zero_le k), le_refl _, rfl⟩
      · intro h0
        exfalso
        have hnn : 0 ≤ (stAfter cfg env m k).bestPsnr := by
          rw [stAfter_bestPsnr]; exact bestSpec_nonneg cfg env k
        have hlt := hc.2
        simp only at h0
        rw [h0] at hlt
        exact absurd hlt (not_lt.mpr hnn)
    · rw [if_neg hc]
      constructor
      · intro h
        simp only at h ⊢
        obtain ⟨ha, hb, hle, hd⟩ := ih.1 h
        exact ⟨ha, hb, le_trans hle (Nat.le_succ k), hd⟩
      · intro h
        simp only at h ⊢
        exact ih.2 h

/-- C3: every checkpoint saved by `train()` has as content the single-key
dictionary `{'state_dict': <current model parameters>}` and is identified by
the current epoch number, the configured session name and the configured save
directory; checkpoints are saved only at validation epochs within the run,
and `test()` never saves a checkpoint. -/
theorem checkpoint_content_and_placement (cfg : Config) (env : Env)
    (m b : Bool) :
    (∀ (kv : List (String × CkptVal)) (e : Nat) (s d : String),
        Event.saveCheckpoint kv e s d ∈ trainTrace cfg env m →
          kv.map Prod.fst = ["state_dict"]
            ∧ s = cfg.session ∧ d = cfg.saveDir
            ∧ 1 ≤ e ∧ e ≤ cfg.numEpochs ∧ validatedB cfg e = true
            ∧ kv = [("state_dict", CkptVal.params
                (paramsAfterEpoch cfg env e (stAfter cfg env m (e - 1)).params))])
    ∧ (∀ ev ∈ testTrace cfg env b, ev.isCkptSave = false) := by
  constructor
  · intro kv e s d h
    obtain ⟨h1, h2, h3, h4, h5, h6, h7⟩ :=
      (save_mem_trainTrace cfg env m kv e s d).mp h
    exact ⟨by rw [h5]; rfl, h6, h7, h1, h2, h3, h5⟩
  · intro ev hmem
    simp only [testTrace, testRun, List.cons_append, List.nil_append,
      List.mem_append, List.mem_cons, List.mem_singleton, List.not_mem_nil,
      or_false, or_assoc] at hmem
    rcases hmem with rfl | rfl | rfl | h | rfl | rfl
    · rfl
    · rfl
    · rfl
    · rcases mem_testLoop cfg env _ _ ev h with ⟨i, rfl⟩ | rfl | ⟨i, rfl⟩ <;> rfl
    · rfl
    · rfl

theorem checkpoint_content_and_placement_witness :
    ([("state_dict", CkptVal.params (paramsAfterEpoch cfg0 env0 1
          (stAfter cfg0 env0 true 0).params))] :
        List (String × CkptVal)).map Prod.fst = ["state_dict"]
    ∧ validatedB cfg0 1 = true := by
  have hmem : Event.saveCheckpoint
      [("state_dict", CkptVal.params (paramsAfterEpoch cfg0 env0 1
        (stAfter cfg0 env0 true 0).params))] 1 cfg0.session cfg0.saveDir
      ∈ trainTrace cfg0 env0 true := by
    rw [save_mem_trainTrace]
    refine ⟨le_refl 1, by decide, by decide, ?_, rfl, rfl, rfl⟩
    rw [Nat.sub_self, bestSpec_zero]
    norm_num [valAverages, sumRange, cfg0, env0, List.range_succ]
  have h := (checkpoint_content_and_placement cfg0 env0 true true).1 _ 1
    cfg0.session cfg0.saveDir hmem
  exact ⟨h.1, h.2.2.2.2.2.1⟩

/-- C9 (amended): across the validation passes of a run of `train()`,
`best_psnr` is non-decreasing and after the first `k` epochs equals the
maximum of 0 and all averaged PSNR values observed so far; whenever
`best_psnr` is positive, `best_epoch` is a validation epoch of the run whose
averaged PSNR attained it, and when `best_psnr` is still 0 (no pass ever
exceeded 0), `best_epoch` keeps its initial value 1 without having attained
anything; a checkpoint is saved at epoch `e` if and only if `e` is a
validation epoch whose averaged PSNR strictly exceeds the previous best, so a
save forces that pass's averaged PSNR to be positive. -/
theorem best_psnr_running_max_and_save_iff (cfg : Config) (env : Env)
    (m : Bool) :
    (∀ k, (stAfter cfg env m k).bestPsnr ≤ (stAfter cfg env m (k + 1)).bestPsnr)
    ∧ (∀ k, (stAfter cfg env m k).bestPsnr = bestSpec cfg env k)
    ∧ (∀ k, 0 < (stAfter cfg env m k).bestPsnr →
        validatedB cfg (stAfter cfg env m k).bestEpoch = true
          ∧ 1 ≤ (stAfter cfg env m k).bestEpoch
          ∧ (stAfter cfg env m k).bestEpoch ≤ k
          ∧ (valAverages cfg env (stAfter cfg env m k).bestEpoch).psnr
              = (stAfter cfg env m k).bestPsnr)
    ∧ (∀ k, (stAfter cfg env m k).bestPsnr = 0 →
        (stAfter cfg env m k).bestEpoch = 1)
    ∧ (∀ (kv : List (String × CkptVal)) (e : Nat) (s d : String),
        Event.saveCheckpoint kv e s d ∈ trainTrace cfg env m ↔
          (1 ≤ e ∧ e ≤ cfg.numEpochs ∧ validatedB cfg e = true
            ∧ bestSpec cfg env (e - 1) < (valAverages cfg env e).psnr
            ∧ kv = [("state_dict", CkptVal.params (paramsAfterEpoch cfg env e
                (stAfter cfg env m (e - 1)).params))]
            ∧ s = cfg.session ∧ d = cfg.saveDir))
    ∧ (∀ (kv : List (String × CkptVal)) (e : Nat) (s d : String),
        Event.saveCheckpoint kv e s d ∈ trainTrace cfg env m →
          0 < (valAverages cfg env e).psnr) := by
  refine ⟨?_, stAfter_bestPsnr cfg env m,
    fun k => (stAfter_attained cfg env m k).1,
    fun k => (stAfter_attained cfg env m k).2,
    save_mem_trainTrace cfg env m, ?_⟩
  · intro k
    rw [stAfter_bestPsnr, stAfter_bestPsnr]
    exact bestSpec_le_succ cfg env k
  · intro kv e s d h
    obtain ⟨-, -, -, h4, -⟩ := (save_mem_trainTrace cfg env m kv e s d).mp h
    exact lt_of_le_of_lt (bestSpec_nonneg cfg env (e - 1)) h4

theorem best_psnr_running_max_and_save_iff_witness :
    validatedB cfg0 (stAfter cfg0 env0 true 1).bestEpoch = true
    ∧ (stAfter cfg0 env0 true 1).bestEpoch ≤ 1 := by
  have hpos : 0 < (stAfter cfg0 env0 true 1).bestPsnr := by
    rw [(best_psnr_running_max_and_save_iff cfg0 env0 true).2.1 1]
    rw [show (1 : Nat) = 0 + 1 from rfl, bestSpec_succ, bestSpec_zero]
    rw [if_pos (by decide)]
    have havg : (valAverages cfg0 env0 (0 + 1)).psnr = 1 := by
      norm_num [valAverages, sumRange, cfg0, env0, List.range_succ]
    rw [havg]
    norm_num
  have h := (best_psnr_running_max_and_save_iff cfg0 env0 true).2.2.1 1 hpos
  exact ⟨h.1, h.2.2.1⟩

/-- C9 counterexample: with validation PSNR constantly -1, after the single
validation pass of the run `best_psnr` is 0 (the maximum of 0 and the
observed averages) but `best_epoch` is its initial value 1, an epoch whose
validation pass averaged -1: no validation pass attained the value of
`best_psnr`, contradicting the claim that `best_epoch` is the epoch that
attained it. -/
theorem best_epoch_not_attained_without_improvement :
    (stAfter cfg0 envNeg true 1).bestPsnr = 0
    ∧ (stAfter cfg0 envNeg true 1).bestEpoch = 1
    ∧ validatedB cfg0 1 = true
    ∧ (valAverages cfg0 envNeg 1).psnr ≠ (stAfter cfg0 envNeg true 1).bestPsnr := by
  have havg : (valAverages cfg0 envNeg 1).psnr = -1 := by
    norm_num [valAverages, sumRange, cfg0, envNeg, env0, List.range_succ]
  have hcond : ¬(validatedB cfg0 1 = true
      ∧ (initTrainState envNeg).bestPsnr < (valAverages cfg0 envNeg 1).psnr) := by
    rw [havg]
    rintro ⟨-, hlt⟩
    simp only [initTrainState] at hlt
    norm_num at hlt
  have hst : stAfter cfg0 envNeg true 1
      = { params := paramsAfterEpoch cfg0 envNeg 1 (initTrainState envNeg).params,
          bestPsnr := (initTrainState envNeg).bestPsnr,
          bestEpoch := (initTrainState envNeg).bestEpoch } := by
    rw [stAfter_succ, runEpoch_snd, stAfter_zero, if_neg hcond]
  rw [hst, havg]
  refine ⟨rfl, rfl, by decide, by norm_num [initTrainState]⟩

theorem runScript_cons_ok {env : Instr → Except Err Unit} {i : Instr}
    (h : env i = Except.ok ()) (l : List Instr) :
    runScript env (i :: l)
      = (i :: (runScript env l).1, (runScript env l).2) := by
  simp [runScript, h]

theorem runScript_cons_err {env : Instr → Except Err Unit} {i : Instr}
    {er : Err} (h : env i = Except.error er) (l : List Instr) :
    runScript env (i :: l) = ([], some er) := by
  simp [runScript, h]

theorem runScript_ok_append {env : Instr → Except Err Unit}
    {l₁ : List Instr} (h : ∀ i ∈ l₁, env i = Except.ok ())
    (l₂ : List Instr) :
    runScript env (l₁ ++ l₂)
      = (l₁ ++ (runScript env l₂).1, (runScript env l₂).2) := by
  induction l₁ with
  | nil => simp
  | cons i is ih =>
    rw [List.cons_append, runScript_cons_ok (h i (List.mem_cons_self i is)),
      ih (fun j hj => h j (List.mem_cons_of_mem i hj))]
    simp

/-- C6: neither script contains an exception handler: whenever every call
before some call site of `trainProgram` or `testProgram` succeeds and that
call site raises, the raised exception is the result of the whole run and
exactly the calls before the raising one were executed — nothing after it
runs. -/
theorem exceptions_propagate_unhandled (cfg : Config)
    (env : Instr → Except Err Unit) (prog pre post : List Instr)
    (bad : Instr) (er : Err)
    (hprog : prog = trainProgram cfg ∨ prog = testProgram cfg)
    (hsplit : prog = pre ++ bad :: post)
    (hok : ∀ i ∈ pre, env i = Except.ok ())
    (hbad : env bad = Except.error er) :
    runScript env prog = (pre, some er) := by
  rw [hsplit, runScript_ok_append hok, runScript_cons_err hbad]
  simp

theorem exceptions_propagate_unhandled_witness :
    runScript envBadLoad (testProgram cfg0)
      = ([Instr.prepareData, Instr.prepareModel], some (Err.exn 7)) :=
  exceptions_propagate_unhandled cfg0 envBadLoad (testProgram cfg0)
    [Instr.prepareData, Instr.prepareModel]
    (Instr.setEval 0
      :: (testBatchInstrs 0 ++ divideInstrs 1 ++ [Instr.writeTestLog]))
    Instr.loadCkpt (Err.exn 7) (Or.inr rfl) (by decide)
    (by
      intro i hi
      simp only [List.mem_cons, List.not_mem_nil, or_false] at hi
      rcases hi with rfl | rfl <;> rfl)
    rfl

theorem divSensitive_ok {i : Instr} (h : i.isDivide = false) :
    divSensitive i = Except.ok () := by
  cases i <;> simp_all [Instr.isDivide, divSensitive]

theorem stepInstrs_not_divide (e i : Nat) :
    ∀ j ∈ stepInstrs e i, j.isDivide = false := by
  intro j hj
  simp only [stepInstrs, List.mem_cons, List.not_mem_nil, or_false] at hj
  rcases hj with rfl | rfl | rfl | rfl | rfl | rfl | rfl <;> rfl

theorem epochInstrs_not_divide_of_not_validated (cfg : Config) (e : Nat)
    (h : validatedB cfg e = false) :
    ∀ j ∈ epochInstrs cfg e, j.isDivide = false := by
  intro j hj
  simp only [epochInstrs, h, Bool.false_eq_true, if_false, List.append_nil,
    List.mem_cons, List.mem_append, List.mem_flatMap, List.mem_range,
    List.mem_singleton, or_assoc] at hj
  rcases hj with rfl | ⟨i, _, hji⟩ | rfl | hj0
  · rfl
  · exact stepInstrs_not_divide e i j hji
  · rfl
  · simp at hj0

theorem train_empty_val_divides_by_zero (cfg : Config)
    (hvb : cfg.valBatches = 0) (hv1 : 0 < cfg.valAfterEvery)
    (hvN : cfg.valAfterEvery ≤ cfg.numEpochs) :
    (runScript divSensitive (trainProgram cfg)).2 = some Err.divByZero := by
  set v := cfg.valAfterEvery with hv
  have hsplitR : List.range' 1 cfg.numEpochs
      = List.range' 1 (v - 1) ++ v :: List.range' (v + 1) (cfg.numEpochs - v) := by
    have h0 := List.range'_append 1 (v - 1) (cfg.numEpochs - v + 1) 1
    simp only [Nat.one_mul] at h0
    rw [show 1 + (v - 1) = v from by omega,
      show cfg.numEpochs - v + 1 + (v - 1) = cfg.numEpochs from by omega] at h0
    rw [← h0, List.range'_succ]
  have hval : validatedB cfg v = true := by
    simp [validatedB, Nat.mod_self]
  have hprog : trainProgram cfg
      = ([Instr.makeSaveDir, Instr.initTrackers, Instr.prepareData,
          Instr.prepareModel, Instr.prepareOptim]
          ++ (List.range' 1 (v - 1)).flatMap (epochInstrs cfg)
          ++ (Instr.setTrain v
              :: ((List.range cfg.trainBatches).flatMap (stepInstrs v)
                ++ [Instr.schedStep v] ++ [Instr.setEval v])))
        ++ Instr.divide MetricKind.psnr 0
        :: ([Instr.divide MetricKind.ssim 0, Instr.divide MetricKind.lpips 0,
             Instr.divide MetricKind.uciqe 0, Instr.divide MetricKind.uiqm 0,
             Instr.ckptCheck v, Instr.accelLog v, Instr.writeLog v]
            ++ (List.range' (v + 1) (cfg.numEpochs - v)).flatMap
                (epochInstrs cfg)
            ++ [Instr.endTraining]) := by
    rw [trainProgram, hsplitR]
    simp [epochInstrs, hval, valInstrs, divideInstrs, hvb,
      List.flatMap_append, List.flatMap_cons, List.append_assoc]
  have hok : ∀ i ∈ ([Instr.makeSaveDir, Instr.initTrackers, Instr.prepareData,
      Instr.prepareModel, Instr.prepareOptim]
        ++ (List.range' 1 (v - 1)).flatMap (epochInstrs cfg)
        ++ (Instr.setTrain v
            :: ((List.range cfg.trainBatches).flatMap (stepInstrs v)
              ++ [Instr.schedStep v] ++ [Instr.setEval v]))),
      divSensitive i = Except.ok () := by
    intro i hi
    rcases List.mem_append.mp hi with hi1 | hi2
    · rcases List.mem_append.mp hi1 with hia | hib
      · simp only [List.mem_cons, List.not_mem_nil, or_false] at hia
        rcases hia with rfl | rfl | rfl | rfl | rfl <;> rfl
      · rcases List.mem_flatMap.mp hib with ⟨e, he, hie⟩
        refine divSensitive_ok
          (epochInstrs_not_divide_of_not_validated cfg e ?_ i hie)
        rcases List.mem_range'.mp he with ⟨j, hj, rfl⟩
        have hlt : 1 + 1 * j < v := by omega
        simp only [validatedB, Nat.mod_eq_of_lt hlt, beq_eq_false_iff_ne]
        omega
    · rcases List.mem_cons.mp hi2 with rfl | hi3
      · rfl
      · rcases List.mem_append.mp hi3 with hi4 | hi5
        · rcases List.mem_append.mp hi4 with hi6 | hi7
          · rcases List.mem_flatMap.mp hi6 with ⟨j, _, hij⟩
            exact divSensitive_ok (stepInstrs_not_divide v j i hij)
          · rw [List.mem_singleton] at hi7
            subst hi7
            rfl
        · rw [List.mem_singleton] at hi5
          subst hi5
          rfl
  rw [hprog, runScript_ok_append hok, runScript_cons_err rfl]

theorem test_empty_val_divides_by_zero (cfg : Config)
    (hvb : cfg.valBatches = 0) :
    (runScript divSensitive (testProgram cfg)).2 = some Err.divByZero := by
  have hprog : testProgram cfg
      = [Instr.prepareData, Instr.prepareModel, Instr.loadCkpt,
         Instr.setEval 0, Instr.divide MetricKind.psnr 0,
         Instr.divide MetricKind.ssim 0, Instr.divide MetricKind.lpips 0,
         Instr.divide MetricKind.uciqe 0, Instr.divide MetricKind.uiqm 0,
         Instr.writeTestLog] := by
    simp [testProgram, hvb, divideInstrs]
  rw [hprog]
  decide

/-- C8: when the validation/evaluation loader yields zero batches, both the
validation phase of `train()` (as soon as one runs, i.e. the validation
cadence divides some epoch of the run) and the whole of `test()` abort with a
division-by-zero error at the metric averaging, with every framework call
succeeding up to that point: a non-empty validation set is a precondition for
either script to complete a metric report. -/
theorem empty_validation_loader_divides_by_zero (cfg : Config)
    (hvb : cfg.valBatches = 0) (hv1 : 0 < cfg.valAfterEvery)
    (hvN : cfg.valAfterEvery ≤ cfg.numEpochs) :
    (runScript divSensitive (trainProgram cfg)).2 = some Err.divByZero
    ∧ (runScript divSensitive (testProgram cfg)).2 = some Err.divByZero :=
  ⟨train_empty_val_divides_by_zero cfg hvb hv1 hvN,
   test_empty_val_divides_by_zero cfg hvb⟩

theorem empty_validation_loader_divides_by_zero_witness :
    (runScript divSensitive (trainProgram cfgEmpty)).2 = some Err.divByZero
    ∧ (runScript divSensitive (testProgram cfgEmpty)).2 = some Err.divByZero :=
  empty_validation_loader_divides_by_zero cfgEmpty rfl (by decide) (by decide)

theorem log_lines_mode_and_content_witness :
    (LogLine.testInfo cfg0.session cfg0.weight cfg0.testValDir
        = LogLine.testInfo cfg0.session cfg0.weight cfg0.testValDir)
      ∨ (LogLine.testInfo cfg0.session cfg0.weight cfg0.testValDir
        = LogLine.testStats (testAverages cfg0 env0).psnr
            (testAverages cfg0 env0).ssim (testAverages cfg0 env0).lpips
            (testAverages cfg0 env0).uciqe (testAverages cfg0 env0).uiqm) :=
  ((log_lines_mode_and_content cfg0 env0).2 true (testLogPath cfg0) "a"
    (LogLine.testInfo cfg0.session cfg0.weight cfg0.testValDir)
    (by simp [testTrace, testRun])).2.2

end UW
